import Mathlib

/-!
Verification of the server-health log analytics engine
(`log_report.py` and `server_check.py`).

The Python source is shallowly embedded: log-record dictionaries become a
`HealthRecord` structure, the metrics dictionary becomes `MetricsSummary`
(float division is modelled exactly with `ℚ`), Python exceptions raised by
`parse_log_line` (`IndexError` on a short field list, `ValueError` from
`int()`) become the `Except`-error branch, and the insertion-ordered Python
dict used for grouping becomes an association list.
-/

namespace ServerHealth

/-- One parsed log entry, mirroring the dictionary built by
`parse_log_line` in `log_report.py` (keys `timestamp`, `server`, `env`,
`is_up`, `cpu`, `disk`, `status`).  `cpu`/`disk` are `none` exactly when the
corresponding text field was the literal `N/A`. -/
structure HealthRecord where
  timestamp : String
  server : String
  env : String
  is_up : Bool
  cpu : Option ℤ
  disk : Option ℤ
  status : String
deriving DecidableEq, Repr

/-- The two Python exceptions that `parse_log_line` can raise:
`IndexError` from `clean_parts[i]` when the split produced fewer than 7
fields, and `ValueError` from `int(text)` when a numeric field is neither
`N/A` nor an integer literal (the offending text is carried along). -/
inductive ParseErr where
  | indexError : ParseErr
  | valueError : String → ParseErr
deriving DecidableEq, Repr

/-- Python `str.strip()` on a character list: drop whitespace from both
ends. -/
def strip (cs : List Char) : List Char :=
  ((cs.dropWhile Char.isWhitespace).reverse.dropWhile Char.isWhitespace).reverse

/-- Python `str.split(",")` on a character list: cut at every comma, keeping
empty pieces, so the result always has one more piece than there are
commas. -/
def split_commas : List Char → List (List Char)
  | [] => [[]]
  | c :: rest =>
    match split_commas rest with
    | [] => [[]]
    | f :: fs => if c = ',' then [] :: f :: fs else (c :: f) :: fs

/-- `cs` is a non-empty run of decimal digits. -/
def isDigits (cs : List Char) : Bool :=
  !cs.isEmpty && cs.all Char.isDigit

/-- Base-10 value of a digit run. -/
def digitsToNat (cs : List Char) : ℕ :=
  cs.foldl (fun acc c => 10 * acc + (c.toNat - 48)) 0

/-- Python `int(s)` on an already-stripped string: an optional sign followed
by a non-empty run of decimal digits; anything else is a `ValueError`
(modelled as `none`). -/
def pyInt (s : List Char) : Option ℤ :=
  match s with
  | '-' :: rest => if isDigits rest then some (-(digitsToNat rest : ℤ)) else none
  | '+' :: rest => if isDigits rest then some (digitsToNat rest : ℤ) else none
  | cs => if isDigits cs then some (digitsToNat cs : ℤ) else none

/-- Numeric field decoding in `parse_log_line`
(`None if text == "N/A" else int(text)`). -/
def parseNum (text : List Char) : Except ParseErr (Option ℤ) :=
  if text = "N/A".toList then Except.ok none
  else
    match pyInt text with
    | some n => Except.ok (some n)
    | none => Except.error (ParseErr.valueError (String.mk text))

/-- `parse_log_line` (`log_report.py` lines 14-43): strip the line, return
`none` (no record, no error) when it is empty, otherwise split on commas and
strip each field.  Accessing fields 0-6 raises `IndexError` when fewer than
7 fields are present; the cpu and then the disk field are converted with
`int` unless they are `N/A`.  Fields beyond the seventh are ignored. -/
def parse_log_line (line : String) : Except ParseErr (Option HealthRecord) :=
  let l := strip line.toList
  if l = [] then Except.ok none
  else
    let clean_parts := (split_commas l).map strip
    if clean_parts.length < 7 then Except.error ParseErr.indexError
    else
      match parseNum (clean_parts.getD 4 []) with
      | Except.error e => Except.error e
      | Except.ok cpu =>
        match parseNum (clean_parts.getD 5 []) with
        | Except.error e => Except.error e
        | Except.ok disk =>
          Except.ok (some
            { timestamp := String.mk (clean_parts.getD 0 [])
              server := String.mk (clean_parts.getD 1 [])
              env := String.mk (clean_parts.getD 2 [])
              is_up := clean_parts.getD 3 [] = "True".toList
              cpu := cpu
              disk := disk
              status := String.mk (clean_parts.getD 6 []) })

/-- `load_log_file` (`log_report.py` lines 46-55).  The file body is
modelled as its list of raw lines.  Each line is parsed in order; a `none`
result (blank line) is skipped, a parsed record is appended, and an
exception raised by `parse_log_line` propagates (there is no handler), so
the first failing line aborts the whole load. -/
def load_log_file (lines : List String) : Except ParseErr (List HealthRecord) :=
  match lines with
  | [] => Except.ok []
  | line :: rest =>
    match parse_log_line line with
    | Except.error e => Except.error e
    | Except.ok none => load_log_file rest
    | Except.ok (some entry) =>
      match load_log_file rest with
      | Except.error e => Except.error e
      | Except.ok entries => Except.ok (entry :: entries)

/-- The records of the successfully parsed lines, in order. -/
def good_records : List String → List HealthRecord
  | [] => []
  | line :: rest =>
    match parse_log_line line with
    | Except.ok (some entry) => entry :: good_records rest
    | _ => good_records rest

/-! ### Grouping engine

The three `summarize_by_*` functions in `log_report.py` share one loop
shape: a Python dict (insertion-ordered) from key to list of entries, where
a missing key is first bound to `[]` and the entry is then appended.  The
dict is modelled as an association list in key-insertion order. -/

/-- One loop iteration of the summarize functions: if the key is absent the
bucket is created (at the end, matching dict insertion order), then the
entry is appended to that key's bucket. -/
def insertEntry (summary : List (String × List HealthRecord)) (k : String)
    (entry : HealthRecord) : List (String × List HealthRecord) :=
  match summary with
  | [] => [(k, [entry])]
  | (k₀, bucket) :: rest =>
    if k₀ = k then (k₀, bucket ++ [entry]) :: rest
    else (k₀, bucket) :: insertEntry rest k entry

/-- The common grouping pass (`for entry in entries: ... append`),
parametrised by the key expression used in the loop body. -/
def group_by_key (keyFn : HealthRecord → String) (entries : List HealthRecord) :
    List (String × List HealthRecord) :=
  entries.foldl (fun summary entry => insertEntry summary (keyFn entry) entry) []

/-- `summarize_by_server` (`log_report.py` lines 62-71). -/
def summarize_by_server (entries : List HealthRecord) : List (String × List HealthRecord) :=
  group_by_key (fun entry => entry.server) entries

/-- `summarize_by_env` (`log_report.py` lines 74-83). -/
def summarize_by_env (entries : List HealthRecord) : List (String × List HealthRecord) :=
  group_by_key (fun entry => entry.env) entries

/-- `summarize_health` (`log_report.py` lines 86-95). -/
def summarize_health (entries : List HealthRecord) : List (String × List HealthRecord) :=
  group_by_key (fun entry => entry.status) entries

/-- The bucket stored for key `k` (`summary[k]`), `[]` when absent. -/
def bucketOf (summary : List (String × List HealthRecord)) (k : String) :
    List HealthRecord :=
  match summary with
  | [] => []
  | (k₀, bucket) :: rest => if k₀ = k then bucket else bucketOf rest k

/-- The key sequence a Python dict built by repeated
`if k not in d: d[k] = ...` ends up with: each key at its first
occurrence. -/
def firstOccurrences (keys : List String) : List String :=
  keys.foldl (fun acc k => if k ∈ acc then acc else acc ++ [k]) []

/-! ### Metrics engine -/

/-- The dictionary returned by `compute_server_metrics`.  Python float
division is modelled exactly by `ℚ`; `max` of integers stays an integer. -/
structure MetricsSummary where
  total_checks : ℕ
  up_count : ℕ
  warning_count : ℕ
  critical_count : ℕ
  avg_cpu : ℚ
  max_cpu : ℤ
  avg_disk : ℚ
  max_disk : ℤ
  uptime_pct : ℚ
deriving DecidableEq, Repr

/-- Python `max(values)` on a non-empty list, 0 on the empty list (the
source guards the empty case and substitutes 0). -/
def maxOrZero (values : List ℤ) : ℤ :=
  match values with
  | [] => 0
  | v :: rest => rest.foldl max v

/-- Python `sum(values) / len(values)` guarded to 0 on the empty list. -/
def avgOrZero (values : List ℤ) : ℚ :=
  match values with
  | [] => 0
  | v :: rest => ((v :: rest).sum : ℚ) / ((v :: rest).length : ℚ)

/-- `compute_server_metrics` (`log_report.py` lines 102-144).  The single
pass over the bucket increments `up_count` when `is_up` and
`critical_count` otherwise, counts `status == "WARNING"` independently, and
collects the non-`None` cpu/disk values in order; the collected lists feed
the guarded average/max reductions, and
`uptime_pct = (up_count / total_checks) * 100` when `total_checks > 0`,
else 0. -/
def compute_server_metrics (entries_for_server : List HealthRecord) : MetricsSummary :=
  let total_checks := entries_for_server.length
  let up_count := (entries_for_server.filter (fun entry => entry.is_up)).length
  let critical_count := (entries_for_server.filter (fun entry => !entry.is_up)).length
  let warning_count :=
    (entries_for_server.filter (fun entry => entry.status = "WARNING")).length
  let cpu_values := entries_for_server.filterMap (fun entry => entry.cpu)
  let disk_values := entries_for_server.filterMap (fun entry => entry.disk)
  { total_checks := total_checks
    up_count := up_count
    warning_count := warning_count
    critical_count := critical_count
    avg_cpu := avgOrZero cpu_values
    max_cpu := maxOrZero cpu_values
    avg_disk := avgOrZero disk_values
    max_disk := maxOrZero disk_values
    uptime_pct :=
      if 0 < total_checks then ((up_count : ℚ) / (total_checks : ℚ)) * 100 else 0 }

/-! ### Report renderers (the two data computations the claims touch) -/

/-- The environment label of a server block in `generate_server_report`
(`log_report.py` line 165):
`entries_for_server[0]["env"] if entries_for_server else "unknown"`. -/
def server_report_env_label (entries_for_server : List HealthRecord) : String :=
  match entries_for_server with
  | [] => "unknown"
  | entry :: _ => entry.env

/-- Python string `<=`: lexicographic comparison of the code-point
sequences, a strict prefix ordering below its extensions. -/
def lexLe : List Char → List Char → Bool
  | [], _ => true
  | _ :: _, [] => false
  | x :: xs, y :: ys =>
    if x.toNat = y.toNat then lexLe xs ys else decide (x.toNat < y.toNat)

/-- Insert a string into a `lexLe`-sorted list, keeping it sorted. -/
def insertSorted (s : String) : List String → List String
  | [] => [s]
  | t :: rest =>
    if lexLe s.toList t.toList then s :: t :: rest else t :: insertSorted s rest

/-- Python `sorted` on a list of strings (insertion sort; the sources'
inputs are duplicate-free sets, so stability is immaterial). -/
def sortStrings : List String → List String
  | [] => []
  | s :: rest => insertSorted s (sortStrings rest)

/-- The server list of an environment block in `generate_env_report`
(`log_report.py` line 198):
`sorted({entry["server"] for entry in entries_for_env})` — the distinct
server names, sorted lexicographically. -/
def servers_in_env (entries_for_env : List HealthRecord) : List String :=
  sortStrings ((entries_for_env.map (fun entry => entry.server)).dedup)

/-! ### Simulator (`server_check.py`)

`simulate_metrics` draws `is_up` from `random.choice([True, True, False,
True])` and cpu/disk from `random.randint(0, 100)`.  The random draws are
modelled as explicit inputs: an index into the four-element choice list and
the two drawn integers (the `randint(0, 100)` contract, namely
`0 ≤ v ≤ 100`, appears as a hypothesis where needed). -/

/-- `CPU_WARN_THRESHOLD` in `server_check.py`. -/
def CPU_WARN_THRESHOLD : ℤ := 80

/-- `DISK_WARN_THRESHOLD` in `server_check.py`. -/
def DISK_WARN_THRESHOLD : ℤ := 85

/-- The `hardcode_env` dict of `server_check.py`. -/
def hardcode_env : List (String × String) :=
  [("web01", "prod"), ("db01", "prod"), ("cache01", "dev"), ("auth01", "stage")]

/-- `health_eval` (`server_check.py` lines 19-25). -/
def health_eval (is_up : Bool) (cpu disk : ℤ) : String :=
  if !is_up then "CRITICAL"
  else if CPU_WARN_THRESHOLD < cpu ∨ DISK_WARN_THRESHOLD < disk then "WARNING"
  else "GOOD"

/-- `simulate_metrics` (`server_check.py` lines 27-31) as a function of the
random draws: `random.choice([True, True, False, True])` becomes indexing
that list, and the two `randint` results are passed through. -/
def simulate_metrics (upChoice : Fin 4) (cpuDraw diskDraw : ℤ) : Bool × ℤ × ℤ :=
  ([true, true, false, true].get upChoice, cpuDraw, diskDraw)

/-- The log record emitted by one `check_server` call (`server_check.py`
lines 34-53): environment looked up in `hardcode_env` with default
`"dev"`, status from `health_eval`, and — when the server is down — cpu and
disk replaced by `N/A` (absent) before the line is written. -/
def check_server_record (server_name : String) (upChoice : Fin 4)
    (cpuDraw diskDraw : ℤ) (timestamp : String) : HealthRecord :=
  let server_env := ((hardcode_env.lookup server_name).getD "dev")
  let drawn := simulate_metrics upChoice cpuDraw diskDraw
  let is_up := drawn.1
  let cpu := drawn.2.1
  let disk := drawn.2.2
  let status := health_eval is_up cpu disk
  { timestamp := timestamp
    server := server_name
    env := server_env
    is_up := is_up
    cpu := if is_up then some cpu else none
    disk := if is_up then some disk else none
    status := status }

/-! ### Sample records (concrete inputs used by witnesses, scenario checks
and counterexamples) -/

/-- A healthy check of `web01`. -/
def recUpGood : HealthRecord :=
  ⟨"2024-01-01T10:00:00", "web01", "prod", true, some 50, some 60, "GOOD"⟩

/-- A failed check of `web01` (metrics absent). -/
def recDownCritical : HealthRecord :=
  ⟨"2024-01-01T10:05:00", "web01", "prod", false, none, none, "CRITICAL"⟩

/-- A record whose present cpu reading lies outside `[0, 100]`; it parses
from the well-formed 7-field line
`"2024-01-01T10:10:00, web01, prod, True, 150, 50, GOOD"`. -/
def recCpu150 : HealthRecord :=
  ⟨"2024-01-01T10:10:00", "web01", "prod", true, some 150, some 50, "GOOD"⟩

/-- Scenario C record: server `web01`, environment `prod`. -/
def scenarioWeb01 : HealthRecord :=
  ⟨"t1", "web01", "prod", true, some 50, some 60, "GOOD"⟩

/-- Scenario C record: server `db01`, environment `prod`. -/
def scenarioDb01 : HealthRecord :=
  ⟨"t2", "db01", "prod", true, some 40, some 30, "GOOD"⟩

/-- Scenario C record: server `cache01`, environment `dev`. -/
def scenarioCache01 : HealthRecord :=
  ⟨"t3", "cache01", "dev", true, some 20, some 10, "GOOD"⟩

/-! ### Helper lemmas: metrics -/

theorem length_filter_add_length_filter_not {α : Type} (p : α → Bool) (l : List α) :
    (l.filter p).length + (l.filter (fun a => !p a)).length = l.length := by
  induction l with
  | nil => rfl
  | cons a l ih =>
    cases h : p a <;> simp [List.filter_cons, h] <;> omega

theorem list_sum_nonneg_int (values : List ℤ) (h : ∀ v ∈ values, 0 ≤ v) :
    0 ≤ values.sum := by
  induction values with
  | nil => simp
  | cons v rest ih =>
    simp only [List.sum_cons]
    have hv := h v (List.mem_cons_self v rest)
    have hr := ih (fun u hu => h u (List.mem_cons_of_mem v hu))
    omega

theorem list_sum_le_mul_length (values : List ℤ) (c : ℤ) (h : ∀ v ∈ values, v ≤ c) :
    values.sum ≤ (values.length : ℤ) * c := by
  induction values with
  | nil => simp
  | cons v rest ih =>
    have hv := h v (List.mem_cons_self v rest)
    have hr := ih (fun u hu => h u (List.mem_cons_of_mem v hu))
    simp only [List.sum_cons, List.length_cons]
    push_cast
    nlinarith

theorem avgOrZero_nonneg (values : List ℤ) (h : ∀ v ∈ values, 0 ≤ v) :
    0 ≤ avgOrZero values := by
  cases values with
  | nil => simp [avgOrZero]
  | cons v rest =>
    have hsum : 0 ≤ (v :: rest).sum := list_sum_nonneg_int _ h
    have : (0 : ℚ) ≤ ((v :: rest).sum : ℚ) := by exact_mod_cast hsum
    exact div_nonneg this (by positivity)

theorem avgOrZero_le_of_forall_le (values : List ℤ) (h : ∀ v ∈ values, v ≤ 100) :
    avgOrZero values ≤ 100 := by
  cases values with
  | nil => simp [avgOrZero]
  | cons v rest =>
    have hlen : (0 : ℚ) < (((v :: rest).length : ℕ) : ℚ) := by
      simp only [List.length_cons]
      positivity
    have hsum : (v :: rest).sum ≤ ((v :: rest).length : ℤ) * 100 :=
      list_sum_le_mul_length _ 100 h
    simp only [avgOrZero]
    rw [div_le_iff₀ hlen]
    calc (((v :: rest).sum : ℤ) : ℚ) ≤ (((v :: rest).length : ℤ) * 100 : ℚ) := by
          exact_mod_cast hsum
    _ = 100 * (((v :: rest).length : ℕ) : ℚ) := by push_cast; ring

theorem foldl_max_le (rest : List ℤ) (a c : ℤ) (ha : a ≤ c)
    (h : ∀ v ∈ rest, v ≤ c) : rest.foldl max a ≤ c := by
  induction rest generalizing a with
  | nil => simpa using ha
  | cons b rest ih =>
    simp only [List.foldl_cons]
    exact ih (max a b)
      (max_le ha (h b (List.mem_cons_self b rest)))
      (fun v hv => h v (List.mem_cons_of_mem b hv))

theorem le_foldl_max (rest : List ℤ) (a : ℤ) : a ≤ rest.foldl max a := by
  induction rest generalizing a with
  | nil => simp
  | cons b rest ih =>
    simp only [List.foldl_cons]
    exact le_trans (le_max_left a b) (ih (max a b))

theorem maxOrZero_nonneg (values : List ℤ) (h : ∀ v ∈ values, 0 ≤ v) :
    0 ≤ maxOrZero values := by
  cases values with
  | nil => simp [maxOrZero]
  | cons v rest =>
    exact le_trans (h v (List.mem_cons_self v rest)) (le_foldl_max rest v)

theorem maxOrZero_le_of_forall_le (values : List ℤ) (h : ∀ v ∈ values, v ≤ 100) :
    maxOrZero values ≤ 100 := by
  cases values with
  | nil => simp [maxOrZero]
  | cons v rest =>
    exact foldl_max_le rest v 100 (h v (List.mem_cons_self v rest))
      (fun u hu => h u (List.mem_cons_of_mem v hu))

/-! ### Claim theorems: metrics (C3, C4, C5) -/

/-- C5: for every bucket, the `MetricsSummary` computed by
`compute_server_metrics` satisfies `up_count + critical_count =
total_checks`, where `total_checks` is the length of the bucket. -/
theorem compute_server_metrics_up_add_critical (entries : List HealthRecord) :
    (compute_server_metrics entries).up_count
        + (compute_server_metrics entries).critical_count
      = (compute_server_metrics entries).total_checks ∧
    (compute_server_metrics entries).total_checks = entries.length := by
  refine ⟨?_, rfl⟩
  exact length_filter_add_length_filter_not (fun entry => entry.is_up) entries

/-- C3 (amended): `uptime_pct` equals `100 * up_count / total_checks` when
`total_checks > 0` and 0 when `total_checks = 0`; it always lies in
`[0, 100]`; and it equals 0 exactly when `up_count = 0` (not exactly when
`total_checks = 0`: an all-down bucket also yields 0). -/
theorem compute_server_metrics_uptime_pct (entries : List HealthRecord) :
    ((compute_server_metrics entries).total_checks = 0 →
        (compute_server_metrics entries).uptime_pct = 0) ∧
    (0 < (compute_server_metrics entries).total_checks →
        (compute_server_metrics entries).uptime_pct
          = 100 * ((compute_server_metrics entries).up_count : ℚ)
              / ((compute_server_metrics entries).total_checks : ℚ)) ∧
    0 ≤ (compute_server_metrics entries).uptime_pct ∧
    (compute_server_metrics entries).uptime_pct ≤ 100 ∧
    ((compute_server_metrics entries).uptime_pct = 0 ↔
        (compute_server_metrics entries).up_count = 0) := by
  have hle : (entries.filter (fun entry => entry.is_up)).length ≤ entries.length :=
    List.length_filter_le _ _
  simp only [compute_server_metrics]
  by_cases ht : 0 < entries.length
  · have hne : ((entries.length : ℕ) : ℚ) ≠ 0 := by
      exact_mod_cast Nat.pos_iff_ne_zero.mp ht
    have hpos : (0 : ℚ) < ((entries.length : ℕ) : ℚ) := by exact_mod_cast ht
    rw [if_pos ht]
    refine ⟨fun h0 => absurd h0 (Nat.pos_iff_ne_zero.mp ht), fun _ => by ring, ?_, ?_, ?_⟩
    · positivity
    · have hq : ((entries.filter (fun entry => entry.is_up)).length : ℚ)
          ≤ ((entries.length : ℕ) : ℚ) := by exact_mod_cast hle
      have : ((entries.filter (fun entry => entry.is_up)).length : ℚ)
          / ((entries.length : ℕ) : ℚ) ≤ 1 := (div_le_one hpos).mpr hq
      nlinarith
    · rw [mul_eq_zero, div_eq_zero_iff]
      constructor
      · rintro ((h | h) | h)
        · exact_mod_cast h
        · exact absurd h hne
        · norm_num at h
      · intro h
        exact Or.inl (Or.inl (by exact_mod_cast h))
  · have h0 : entries.length = 0 := Nat.eq_zero_of_not_pos ht
    rw [if_neg ht]
    refine ⟨fun _ => rfl, fun h => absurd h ht, le_refl 0, by norm_num, ?_⟩
    have : (entries.filter (fun entry => entry.is_up)).length = 0 := by omega
    simp [this]

/-- Witness for C3 at the concrete bucket `[recUpGood, recDownCritical]`
(2 checks, 1 up). -/
theorem compute_server_metrics_uptime_pct_witness :
    (compute_server_metrics [recUpGood, recDownCritical]).uptime_pct
      = 100 * ((compute_server_metrics [recUpGood, recDownCritical]).up_count : ℚ)
          / ((compute_server_metrics [recUpGood, recDownCritical]).total_checks : ℚ) :=
  (compute_server_metrics_uptime_pct [recUpGood, recDownCritical]).2.1 (by decide)

/-- Counterexample to C3 as stated: a bucket holding one down record has
`total_checks = 1 ≠ 0` yet `uptime_pct = 0`, so `uptime_pct = 0` does not
hold exactly when `total_checks = 0`. -/
theorem uptime_pct_zero_counterexample :
    (compute_server_metrics [recDownCritical]).total_checks = 1 ∧
    (compute_server_metrics [recDownCritical]).uptime_pct = 0 := by
  refine ⟨rfl, ?_⟩
  show ((0 : ℕ) : ℚ) / ((1 : ℕ) : ℚ) * 100 = 0
  norm_num

/-- C4 (amended): the cpu/disk averages and maxima are functions of the
bucket's present (non-`none`) value lists alone and all four default to 0
when no present values exist; when every present value lies in `[0, 100]`,
the averages and maxima lie in `[0, 100]` (the unconditional range claim
fails because the parser admits present values outside `[0, 100]`). -/
theorem compute_server_metrics_cpu_disk (entries : List HealthRecord) :
    (entries.filterMap (fun entry => entry.cpu) = [] →
        (compute_server_metrics entries).avg_cpu = 0 ∧
        (compute_server_metrics entries).max_cpu = 0) ∧
    (entries.filterMap (fun entry => entry.disk) = [] →
        (compute_server_metrics entries).avg_disk = 0 ∧
        (compute_server_metrics entries).max_disk = 0) ∧
    (∀ others : List HealthRecord,
        entries.filterMap (fun entry => entry.cpu)
            = others.filterMap (fun entry => entry.cpu) →
        (compute_server_metrics entries).avg_cpu = (compute_server_metrics others).avg_cpu ∧
        (compute_server_metrics entries).max_cpu = (compute_server_metrics others).max_cpu) ∧
    (∀ others : List HealthRecord,
        entries.filterMap (fun entry => entry.disk)
            = others.filterMap (fun entry => entry.disk) →
        (compute_server_metrics entries).avg_disk = (compute_server_metrics others).avg_disk ∧
        (compute_server_metrics entries).max_disk = (compute_server_metrics others).max_disk) ∧
    ((∀ v ∈ entries.filterMap (fun entry => entry.cpu), 0 ≤ v ∧ v ≤ 100) →
        0 ≤ (compute_server_metrics entries).avg_cpu ∧
        (compute_server_metrics entries).avg_cpu ≤ 100 ∧
        0 ≤ (compute_server_metrics entries).max_cpu ∧
        (compute_server_metrics entries).max_cpu ≤ 100) ∧
    ((∀ v ∈ entries.filterMap (fun entry => entry.disk), 0 ≤ v ∧ v ≤ 100) →
        0 ≤ (compute_server_metrics entries).avg_disk ∧
        (compute_server_metrics entries).avg_disk ≤ 100 ∧
        0 ≤ (compute_server_metrics entries).max_disk ∧
        (compute_server_metrics entries).max_disk ≤ 100) := by
  refine ⟨fun h => ?_, fun h => ?_, fun others h => ?_, fun others h => ?_,
    fun h => ?_, fun h => ?_⟩
  · simp [compute_server_metrics, h, avgOrZero, maxOrZero]
  · simp [compute_server_metrics, h, avgOrZero, maxOrZero]
  · simp [compute_server_metrics, h]
  · simp [compute_server_metrics, h]
  · exact ⟨avgOrZero_nonneg _ (fun v hv => (h v hv).1),
      avgOrZero_le_of_forall_le _ (fun v hv => (h v hv).2),
      maxOrZero_nonneg _ (fun v hv => (h v hv).1),
      maxOrZero_le_of_forall_le _ (fun v hv => (h v hv).2)⟩
  · exact ⟨avgOrZero_nonneg _ (fun v hv => (h v hv).1),
      avgOrZero_le_of_forall_le _ (fun v hv => (h v hv).2),
      maxOrZero_nonneg _ (fun v hv => (h v hv).1),
      maxOrZero_le_of_forall_le _ (fun v hv => (h v hv).2)⟩

/-- Witness for C4 at the bucket `[recUpGood, recDownCritical]`: its present
cpu values all lie in `[0, 100]`, so the cpu statistics lie in `[0, 100]`. -/
theorem compute_server_metrics_cpu_disk_witness :
    0 ≤ (compute_server_metrics [recUpGood, recDownCritical]).avg_cpu ∧
    (compute_server_metrics [recUpGood, recDownCritical]).avg_cpu ≤ 100 ∧
    0 ≤ (compute_server_metrics [recUpGood, recDownCritical]).max_cpu ∧
    (compute_server_metrics [recUpGood, recDownCritical]).max_cpu ≤ 100 :=
  (compute_server_metrics_cpu_disk [recUpGood, recDownCritical]).2.2.2.2.1 (by decide)

/-- Counterexample to C4 as stated: the record `recCpu150` (parsed from the
well-formed line `"2024-01-01T10:10:00, web01, prod, True, 150, 50, GOOD"`)
has a present cpu value, yet the bucket's cpu average is 150, outside
`[0, 100]`. -/
theorem avg_cpu_range_counterexample :
    parse_log_line "2024-01-01T10:10:00, web01, prod, True, 150, 50, GOOD"
        = Except.ok (some recCpu150) ∧
    [recCpu150].filterMap (fun entry => entry.cpu) ≠ [] ∧
    (compute_server_metrics [recCpu150]).avg_cpu = 150 ∧
    ¬ (compute_server_metrics [recCpu150]).avg_cpu ≤ 100 := by
  have h : (compute_server_metrics [recCpu150]).avg_cpu = 150 := by
    show avgOrZero [(150 : ℤ)] = 150
    simp [avgOrZero]
  refine ⟨rfl, by decide, h, ?_⟩
  rw [h]
  norm_num

/-! ### Helper lemmas: grouping -/

theorem bucketOf_insertEntry (summary : List (String × List HealthRecord))
    (k k₂ : String) (entry : HealthRecord) :
    bucketOf (insertEntry summary k entry) k₂
      = if k₂ = k then bucketOf summary k₂ ++ [entry] else bucketOf summary k₂ := by
  induction summary with
  | nil =>
    simp only [insertEntry, bucketOf]
    by_cases h : k₂ = k
    · subst h; simp
    · simp [h, Ne.symm h]
  | cons head rest ih =>
    obtain ⟨k₀, bucket⟩ := head
    by_cases h₀ : k₀ = k
    · subst h₀
      by_cases h₂ : k₀ = k₂
      · subst h₂
        simp [insertEntry, bucketOf]
      · simp [insertEntry, bucketOf, h₂, Ne.symm h₂]
    · by_cases h₂ : k₀ = k₂
      · subst h₂
        simp [insertEntry, bucketOf, h₀]
      · simp [insertEntry, bucketOf, h₀, h₂, ih]

theorem keys_insertEntry (summary : List (String × List HealthRecord))
    (k : String) (entry : HealthRecord) :
    (insertEntry summary k entry).map Prod.fst
      = if k ∈ summary.map Prod.fst then summary.map Prod.fst
        else summary.map Prod.fst ++ [k] := by
  induction summary with
  | nil => simp [insertEntry]
  | cons head rest ih =>
    obtain ⟨k₀, bucket⟩ := head
    simp only [insertEntry]
    by_cases h₀ : k₀ = k
    · subst h₀
      simp
    · rw [if_neg h₀]
      by_cases hm : k ∈ rest.map Prod.fst
      · simp [hm, ih, Ne.symm h₀]
      · simp [hm, ih, Ne.symm h₀]

theorem join_insertEntry_perm (summary : List (String × List HealthRecord))
    (k : String) (entry : HealthRecord) :
    ((insertEntry summary k entry).map Prod.snd).flatten.Perm
      ((summary.map Prod.snd).flatten ++ [entry]) := by
  induction summary with
  | nil => simp [insertEntry]
  | cons head rest ih =>
    obtain ⟨k₀, bucket⟩ := head
    simp only [insertEntry]
    by_cases h₀ : k₀ = k
    · rw [if_pos h₀]
      simp only [List.map_cons, List.flatten_cons, List.append_assoc]
      exact List.Perm.append_left bucket List.perm_append_comm
    · rw [if_neg h₀]
      simp only [List.map_cons, List.flatten_cons, List.append_assoc]
      exact List.Perm.append_left bucket ih

theorem group_fold_bucket (keyFn : HealthRecord → String) (entries : List HealthRecord) :
    ∀ (summary : List (String × List HealthRecord)) (k : String),
      bucketOf (entries.foldl (fun s entry => insertEntry s (keyFn entry) entry) summary) k
        = bucketOf summary k ++ entries.filter (fun entry => keyFn entry == k) := by
  induction entries with
  | nil => intro summary k; simp
  | cons entry rest ih =>
    intro summary k
    simp only [List.foldl_cons, List.filter_cons]
    rw [ih]
    by_cases h : keyFn entry = k
    · simp [bucketOf_insertEntry, h]
    · simp [bucketOf_insertEntry, h, Ne.symm h]

theorem group_fold_keys (keyFn : HealthRecord → String) (entries : List HealthRecord) :
    ∀ summary : List (String × List HealthRecord),
      ((entries.foldl (fun s entry => insertEntry s (keyFn entry) entry) summary).map Prod.fst)
        = (entries.map keyFn).foldl
            (fun acc k => if k ∈ acc then acc else acc ++ [k]) (summary.map Prod.fst) := by
  induction entries with
  | nil => intro summary; simp
  | cons entry rest ih =>
    intro summary
    simp only [List.foldl_cons, List.map_cons]
    rw [ih, keys_insertEntry]

theorem group_fold_join (keyFn : HealthRecord → String) (entries : List HealthRecord) :
    ∀ summary : List (String × List HealthRecord),
      ((entries.foldl (fun s entry => insertEntry s (keyFn entry) entry) summary).map
          Prod.snd).flatten.Perm ((summary.map Prod.snd).flatten ++ entries) := by
  induction entries with
  | nil => intro summary; simp
  | cons entry rest ih =>
    intro summary
    simp only [List.foldl_cons]
    refine (ih (insertEntry summary (keyFn entry) entry)).trans ?_
    have h := (join_insertEntry_perm summary (keyFn entry) entry).append_right rest
    refine h.trans ?_
    simp [List.append_assoc]

/-! ### Claim theorem: grouping (C6) -/

/-- C6: grouping (the common pass of `summarize_by_server`,
`summarize_by_env` and `summarize_health`) appends each record to the
bucket named by its key — every key's bucket is exactly the in-order
filter of the input by that key — creating buckets in first-occurrence key
order, and the flattened buckets are a permutation of the input sequence
(each bucket contiguous in the flattening, internal order preserved by the
filter equation). -/
theorem group_by_key_spec (keyFn : HealthRecord → String) (entries : List HealthRecord) :
    (∀ k, bucketOf (group_by_key keyFn entries) k
        = entries.filter (fun entry => keyFn entry == k)) ∧
    (group_by_key keyFn entries).map Prod.fst = firstOccurrences (entries.map keyFn) ∧
    ((group_by_key keyFn entries).map Prod.snd).flatten.Perm entries ∧
    summarize_by_server entries = group_by_key (fun entry => entry.server) entries ∧
    summarize_by_env entries = group_by_key (fun entry => entry.env) entries ∧
    summarize_health entries = group_by_key (fun entry => entry.status) entries := by
  refine ⟨fun k => ?_, ?_, ?_, rfl, rfl, rfl⟩
  · have h := group_fold_bucket keyFn entries [] k
    simpa [group_by_key, bucketOf] using h
  · have h := group_fold_keys keyFn entries []
    simpa [group_by_key, firstOccurrences] using h
  · have h := group_fold_join keyFn entries []
    simpa [group_by_key] using h

/-! ### Helper lemmas: lexicographic sorting -/

theorem lexLe_refl (a : List Char) : lexLe a a = true := by
  induction a with
  | nil => rfl
  | cons x xs ih => simp [lexLe, ih]

theorem lexLe_total (a b : List Char) : lexLe a b = true ∨ lexLe b a = true := by
  induction a generalizing b with
  | nil => exact Or.inl rfl
  | cons x xs ih =>
    cases b with
    | nil => exact Or.inr rfl
    | cons y ys =>
      simp only [lexLe]
      by_cases h : x.toNat = y.toNat
      · rw [if_pos h, if_pos h.symm]
        exact ih ys
      · have h₂ : ¬ y.toNat = x.toNat := fun hh => h hh.symm
        rw [if_neg h, if_neg h₂, decide_eq_true_eq, decide_eq_true_eq]
        omega

theorem lexLe_trans (a b c : List Char) (hab : lexLe a b = true)
    (hbc : lexLe b c = true) : lexLe a c = true := by
  induction a generalizing b c with
  | nil => rfl
  | cons x xs ih =>
    cases b with
    | nil => simp [lexLe] at hab
    | cons y ys =>
      cases c with
      | nil => simp [lexLe] at hbc
      | cons z zs =>
        simp only [lexLe] at hab hbc ⊢
        by_cases h₁ : x.toNat = y.toNat
        · rw [if_pos h₁] at hab
          by_cases h₂ : y.toNat = z.toNat
          · rw [if_pos h₂] at hbc
            rw [if_pos (h₁.trans h₂)]
            exact ih ys zs hab hbc
          · rw [if_neg h₂, decide_eq_true_eq] at hbc
            have hxz : ¬ x.toNat = z.toNat := by omega
            rw [if_neg hxz, decide_eq_true_eq]
            omega
        · rw [if_neg h₁, decide_eq_true_eq] at hab
          by_cases h₂ : y.toNat = z.toNat
          · have hxz : ¬ x.toNat = z.toNat := by omega
            rw [if_neg hxz, decide_eq_true_eq]
            omega
          · rw [if_neg h₂, decide_eq_true_eq] at hbc
            have hxz : ¬ x.toNat = z.toNat := by omega
            rw [if_neg hxz, decide_eq_true_eq]
            omega

theorem mem_insertSorted (s a : String) (l : List String) :
    a ∈ insertSorted s l ↔ a = s ∨ a ∈ l := by
  induction l with
  | nil => simp [insertSorted]
  | cons t rest ih =>
    rw [insertSorted]
    by_cases h : lexLe s.toList t.toList = true
    · rw [if_pos h]
      simp [List.mem_cons]
    · rw [if_neg h]
      simp only [List.mem_cons, ih]
      tauto

theorem pairwise_insertSorted (s : String) (l : List String)
    (h : l.Pairwise (fun a b => lexLe a.toList b.toList = true)) :
    (insertSorted s l).Pairwise (fun a b => lexLe a.toList b.toList = true) := by
  induction l with
  | nil => simp [insertSorted]
  | cons t rest ih =>
    rw [List.pairwise_cons] at h
    obtain ⟨ht, hrest⟩ := h
    by_cases hle : lexLe s.toList t.toList = true
    · rw [insertSorted, if_pos hle]
      refine List.Pairwise.cons ?_ (List.Pairwise.cons ht hrest)
      intro u hu
      rcases List.mem_cons.mp hu with h | h
      · exact h ▸ hle
      · exact lexLe_trans _ _ _ hle (ht u h)
    · rw [insertSorted, if_neg hle]
      refine List.Pairwise.cons ?_ (ih hrest)
      intro u hu
      rcases (mem_insertSorted s u rest).mp hu with h | h
      · rcases lexLe_total s.toList t.toList with hgood | hgood
        · exact absurd hgood hle
        · rw [h]
          exact hgood
      · exact ht u h

theorem nodup_insertSorted (s : String) (l : List String)
    (hs : s ∉ l) (h : l.Nodup) : (insertSorted s l).Nodup := by
  induction l with
  | nil => simp [insertSorted]
  | cons t rest ih =>
    rw [List.nodup_cons] at h
    obtain ⟨htr, hrest⟩ := h
    have hst : s ≠ t := fun hh => hs (hh ▸ List.mem_cons_self t rest)
    have hsr : s ∉ rest := fun hh => hs (List.mem_cons_of_mem t hh)
    by_cases hle : lexLe s.toList t.toList = true
    · rw [insertSorted, if_pos hle]
      exact List.Nodup.cons (by simp [hst, hsr]) (List.Nodup.cons htr hrest)
    · rw [insertSorted, if_neg hle]
      refine List.Nodup.cons ?_ (ih hsr hrest)
      intro hmem
      rcases (mem_insertSorted s t rest).mp hmem with h | h
      · exact hst h.symm
      · exact htr h

theorem mem_sortStrings (a : String) (l : List String) :
    a ∈ sortStrings l ↔ a ∈ l := by
  induction l with
  | nil => simp [sortStrings]
  | cons s rest ih =>
    rw [sortStrings, mem_insertSorted, ih, List.mem_cons]

theorem nodup_sortStrings (l : List String) (h : l.Nodup) : (sortStrings l).Nodup := by
  induction l with
  | nil => simp [sortStrings]
  | cons s rest ih =>
    rw [List.nodup_cons] at h
    exact nodup_insertSorted s (sortStrings rest)
      (fun hm => h.1 ((mem_sortStrings s rest).mp hm)) (ih h.2)

theorem pairwise_sortStrings (l : List String) :
    (sortStrings l).Pairwise (fun a b => lexLe a.toList b.toList = true) := by
  induction l with
  | nil => simp [sortStrings]
  | cons s rest ih => exact pairwise_insertSorted s (sortStrings rest) ih

/-! ### Claim theorem: env-report server list (C8) -/

/-- C8: the server list rendered for an environment bucket by
`generate_env_report` is the set of distinct `server` fields of the
bucket's records, deduplicated and sorted lexicographically; on Scenario C
(records `web01`/prod, `db01`/prod, `cache01`/dev) grouping by environment
yields bucket `prod` rendering `["db01", "web01"]` and bucket `dev`
rendering `["cache01"]`. -/
theorem servers_in_env_spec (entries_for_env : List HealthRecord) :
    (servers_in_env entries_for_env).Pairwise
        (fun a b => lexLe a.toList b.toList = true) ∧
    (servers_in_env entries_for_env).Nodup ∧
    (∀ s, s ∈ servers_in_env entries_for_env ↔
        ∃ entry ∈ entries_for_env, entry.server = s) ∧
    summarize_by_env [scenarioWeb01, scenarioDb01, scenarioCache01]
      = [("prod", [scenarioWeb01, scenarioDb01]), ("dev", [scenarioCache01])] ∧
    servers_in_env [scenarioWeb01, scenarioDb01] = ["db01", "web01"] ∧
    servers_in_env [scenarioCache01] = ["cache01"] := by
  refine ⟨pairwise_sortStrings _,
    nodup_sortStrings _ (List.nodup_dedup _), fun s => ?_, rfl, rfl, rfl⟩
  rw [servers_in_env, mem_sortStrings, List.mem_dedup, List.mem_map]

/-- Witness for C8: `"web01"` appears in the rendered server list of a
bucket containing a `web01` record. -/
theorem servers_in_env_spec_witness :
    "web01" ∈ servers_in_env [scenarioWeb01] :=
  ((servers_in_env_spec [scenarioWeb01]).2.2.1 "web01").mpr
    ⟨scenarioWeb01, List.mem_cons_self _ _, rfl⟩

/-! ### Claim theorems: parsing and loading (C1, C2, C9) -/

/-- C2 (amended): every non-empty raw input line whose trimmed content
splits into fewer than 7 comma-separated fields (in particular a 5-field
line) makes the parser signal an error — the `IndexError` from accessing
the missing field — and produce no record.  (As frozen, the claim also
covered lines with more than 7 fields, but those parse successfully with
the extra fields ignored.) -/
theorem parse_log_line_short (line : String)
    (h₁ : strip line.toList ≠ [])
    (h₂ : (split_commas (strip line.toList)).length < 7) :
    parse_log_line line = Except.error ParseErr.indexError := by
  simp only [String.toList] at h₁ h₂
  simp [parse_log_line, h₁, h₂, List.length_map]

/-- Witness for C2 on the 5-field line of Scenario D. -/
theorem parse_log_line_short_witness :
    parse_log_line "2024-01-01T10:00:00, web01, prod, True, 50"
      = Except.error ParseErr.indexError :=
  parse_log_line_short "2024-01-01T10:00:00, web01, prod, True, 50"
    (by decide) (by decide)

/-- Counterexample to C2 as stated: an 8-field line does not split into
exactly 7 fields, yet the parser signals nothing and produces a record
(the eighth field is ignored). -/
theorem parse_log_line_extra_fields_counterexample :
    parse_log_line "2024-01-01T10:00:00, web01, prod, True, 50, 60, GOOD, extra"
      = Except.ok (some
          ⟨"2024-01-01T10:00:00", "web01", "prod", true, some 50, some 60, "GOOD"⟩) :=
  rfl

/-- C1 (amended): `load_log_file` returns the records of the
successfully-parsed lines only when every line parses (blank lines are
skipped); as soon as any line fails to parse, the exception propagates and
the whole load aborts with an error, returning no records at all — a bad
record does abort the whole batch. -/
theorem load_log_file_all_or_abort (lines : List String) :
    ((∀ line ∈ lines, (parse_log_line line).isOk = true) →
        load_log_file lines = Except.ok (good_records lines)) ∧
    ((∃ line ∈ lines, (parse_log_line line).isOk = false) →
        ∃ e, load_log_file lines = Except.error e) := by
  induction lines with
  | nil =>
    refine ⟨fun _ => rfl, ?_⟩
    rintro ⟨line, hmem, _⟩
    exact absurd hmem (List.not_mem_nil line)
  | cons line rest ih =>
    constructor
    · intro h
      have hline := h line (List.mem_cons_self line rest)
      have hrest := ih.1 (fun u hu => h u (List.mem_cons_of_mem line hu))
      cases hp : parse_log_line line with
      | error e =>
        rw [hp] at hline
        simp [Except.isOk, Except.toBool] at hline
      | ok o =>
        cases o with
        | none => simp [load_log_file, good_records, hp, hrest]
        | some entry => simp [load_log_file, good_records, hp, hrest]
    · rintro ⟨bad, hmem, hbad⟩
      rcases List.mem_cons.mp hmem with h | h
      · subst h
        cases hp : parse_log_line bad with
        | error e => exact ⟨e, by simp [load_log_file, hp]⟩
        | ok o =>
          rw [hp] at hbad
          simp [Except.isOk, Except.toBool] at hbad
      · obtain ⟨e, he⟩ := ih.2 ⟨bad, h, hbad⟩
        cases hp : parse_log_line line with
        | error e₂ => exact ⟨e₂, by simp [load_log_file, hp]⟩
        | ok o =>
          cases o with
          | none => exact ⟨e, by simp [load_log_file, hp, he]⟩
          | some entry => exact ⟨e, by simp [load_log_file, hp, he]⟩

/-- Witness for C1: a batch whose lines all parse loads to exactly its
parsed records, and a batch containing a malformed line loads to an
error. -/
theorem load_log_file_all_or_abort_witness :
    load_log_file ["2024-01-01T10:00:00, web01, prod, True, 50, 60, GOOD"]
      = Except.ok (good_records ["2024-01-01T10:00:00, web01, prod, True, 50, 60, GOOD"]) ∧
    ∃ e, load_log_file ["2024-01-01T10:00:00, web01, prod, True, 50"]
      = Except.error e :=
  ⟨(load_log_file_all_or_abort _).1 (by decide),
   (load_log_file_all_or_abort _).2
     ⟨"2024-01-01T10:00:00, web01, prod, True, 50", List.mem_cons_self _ _, by decide⟩⟩

/-- Counterexample to C1 as stated: a batch with one well-formed line and
one malformed (5-field) line does not return the record of the well-formed
line — the whole load aborts with the propagated `IndexError`. -/
theorem load_log_file_abort_counterexample :
    parse_log_line "2024-01-01T10:00:00, web01, prod, True, 50, 60, GOOD"
      = Except.ok (some
          ⟨"2024-01-01T10:00:00", "web01", "prod", true, some 50, some 60, "GOOD"⟩) ∧
    load_log_file
        ["2024-01-01T10:00:00, web01, prod, True, 50, 60, GOOD",
         "2024-01-01T10:05:00, db01, prod, True, 10"]
      = Except.error ParseErr.indexError :=
  ⟨rfl, rfl⟩

/-- C9: a line that is empty or all whitespace parses to `none` — no
record and no error — and `load_log_file` silently skips it. -/
theorem parse_log_line_blank (line : String) (h : strip line.toList = []) :
    parse_log_line line = Except.ok none ∧
    ∀ rest, load_log_file (line :: rest) = load_log_file rest := by
  have hp : parse_log_line line = Except.ok none := by
    simp only [String.toList] at h
    simp [parse_log_line, h]
  exact ⟨hp, fun rest => by simp [load_log_file, hp]⟩

/-- Witness for C9 on a whitespace-only line. -/
theorem parse_log_line_blank_witness :
    parse_log_line "   " = Except.ok none ∧
    load_log_file ["   ", "2024-01-01T10:00:00, web01, prod, True, 50, 60, GOOD"]
      = load_log_file ["2024-01-01T10:00:00, web01, prod, True, 50, 60, GOOD"] :=
  ⟨(parse_log_line_blank "   " (by decide)).1,
   (parse_log_line_blank "   " (by decide)).2 _⟩

/-! ### Claim theorem: per-server report label (C10) -/

/-- C10: the environment label rendered by `generate_server_report` for a
non-empty bucket is the `env` field of the bucket's first record —
independent of every later record — and an empty bucket is labelled
`"unknown"`. -/
theorem server_report_env_label_spec :
    server_report_env_label [] = "unknown" ∧
    ∀ entry rest, server_report_env_label (entry :: rest) = entry.env :=
  ⟨rfl, fun _ _ => rfl⟩

/-! ### Claim theorem: simulator invariant (C7) -/

/-- C7: every record emitted by a simulated `check_server` call satisfies
the data-model invariant — when the drawn `is_up` is false the cpu and disk
fields are absent (`N/A`), and when it is true they are present and carry
the `randint(0, 100)` draws, hence lie in `[0, 100]`. -/
theorem check_server_record_invariant (server_name : String) (upChoice : Fin 4)
    (cpuDraw diskDraw : ℤ) (timestamp : String)
    (hc₀ : 0 ≤ cpuDraw) (hc₁ : cpuDraw ≤ 100)
    (hd₀ : 0 ≤ diskDraw) (hd₁ : diskDraw ≤ 100) :
    ((check_server_record server_name upChoice cpuDraw diskDraw timestamp).is_up = false →
        (check_server_record server_name upChoice cpuDraw diskDraw timestamp).cpu = none ∧
        (check_server_record server_name upChoice cpuDraw diskDraw timestamp).disk = none) ∧
    ((check_server_record server_name upChoice cpuDraw diskDraw timestamp).is_up = true →
        ∃ c d,
          (check_server_record server_name upChoice cpuDraw diskDraw timestamp).cpu = some c ∧
          (check_server_record server_name upChoice cpuDraw diskDraw timestamp).disk = some d ∧
          0 ≤ c ∧ c ≤ 100 ∧ 0 ≤ d ∧ d ≤ 100) := by
  constructor
  · intro h
    simp only [check_server_record, simulate_metrics, List.get_eq_getElem] at h ⊢
    simp [h]
  · intro h
    refine ⟨cpuDraw, diskDraw, ?_, ?_, hc₀, hc₁, hd₀, hd₁⟩
    · simp only [check_server_record, simulate_metrics, List.get_eq_getElem] at h ⊢
      simp [h]
    · simp only [check_server_record, simulate_metrics, List.get_eq_getElem] at h ⊢
      simp [h]

/-- Witness for C7: the record of an up draw (`choice` index 0) carries the
drawn in-range metrics; the down draw (index 2) is covered by the theorem's
first conjunct at the same inputs. -/
theorem check_server_record_invariant_witness :
    ∃ c d,
      (check_server_record "web01" 0 50 60 "2024-01-01T10:00:00").cpu = some c ∧
      (check_server_record "web01" 0 50 60 "2024-01-01T10:00:00").disk = some d ∧
      0 ≤ c ∧ c ≤ 100 ∧ 0 ≤ d ∧ d ≤ 100 :=
  (check_server_record_invariant "web01" 0 50 60 "2024-01-01T10:00:00"
    (by decide) (by decide) (by decide) (by decide)).2 rfl

end ServerHealth
